import Mathlib

/-
Verification of the numaflow generator source (src/rust/numaflow-core/src/source/generator.rs).

The rate-limiting scheduler StreamGenerator is embedded as a pure state
machine: the outcome of polling the tokio interval timer is an explicit
boolean input (tickFired) to the step function, and the asynchronous
Poll result is an explicit inductive. Byte payloads are lists of bytes.
-/

/-- Byte payload, standing for bytes::Bytes. -/
abbrev Bytes := List Nat

/-- Result of polling an asynchronous stream once: ready with an item, or pending. -/
inductive Poll (α : Type) where
  | ready : α → Poll α
  | pending : Poll α
deriving DecidableEq, Repr

/-- State of the rate-limiting scheduler, from struct StreamGenerator:
content template, requests per unit time, batch size, and credits used in
the current time window. The tokio interval timer is modelled outside the
state, as the tickFired input of each poll. -/
structure StreamGenerator where
  content : Bytes
  rpu : Nat
  batch : Nat
  used : Nat
deriving DecidableEq, Repr

/-- StreamGenerator::new: batch is clamped so that it cannot exceed rpu,
and used starts at zero. -/
def StreamGenerator.new (content : Bytes) (rpu batch : Nat) : StreamGenerator :=
  { content := content
    rpu := rpu
    batch := if batch > rpu then rpu else batch
    used := 0 }

/-- Stream::poll_next for StreamGenerator. tickFired is the outcome of
tick.poll_tick: true means the window boundary timer fired (Poll::Ready),
false means it did not (Poll::Pending). On a fired tick the whole batch is
sent and used is reset to batch; otherwise remaining quota, capped at
batch, is sent, or the call is pending when the quota is exhausted. -/
def StreamGenerator.poll_next (g : StreamGenerator) (tickFired : Bool) :
    Poll (Option (List Bytes)) × StreamGenerator :=
  if tickFired then
    (Poll.ready (some (List.replicate g.batch g.content)), { g with used := g.batch })
  else
    if g.used < g.rpu then
      let to_send := min (g.rpu - g.used) g.batch
      (Poll.ready (some (List.replicate to_send g.content)), { g with used := g.used + to_send })
    else
      (Poll.pending, g)

/-- Stream::size_hint for StreamGenerator: lower bound is the remaining
quota of the window, upper bound is rpu. -/
def StreamGenerator.size_hint (g : StreamGenerator) : Nat × Option Nat :=
  (g.rpu - g.used, some g.rpu)

/-- Run a sequence of polls, keeping only the final state. Each list entry
says whether the interval timer had fired when that poll happened. -/
def StreamGenerator.run (g : StreamGenerator) : List Bool → StreamGenerator
  | [] => g
  | t :: ts => ((g.poll_next t).2).run ts

/-- Run a sequence of polls, returning the total number of payload records
delivered across them together with the final state. -/
def StreamGenerator.runDelivered (g : StreamGenerator) : List Bool → Nat × StreamGenerator
  | [] => (0, g)
  | t :: ts =>
    match g.poll_next t with
    | (Poll.ready (some data), g2) =>
      let r := g2.runDelivered ts
      (data.length + r.1, r.2)
    | (_, g2) => g2.runDelivered ts

/-- Invariant of reachable scheduler states: the clamped batch never
exceeds rpu and the used credits never exceed rpu. -/
def StreamGenerator.Inv (g : StreamGenerator) : Prop :=
  g.batch ≤ g.rpu ∧ g.used ≤ g.rpu

lemma StreamGenerator.poll_next_rpu (g : StreamGenerator) (t : Bool) :
    (g.poll_next t).2.rpu = g.rpu := by
  unfold StreamGenerator.poll_next
  split <;> [rfl; split <;> rfl]

lemma StreamGenerator.poll_next_batch (g : StreamGenerator) (t : Bool) :
    (g.poll_next t).2.batch = g.batch := by
  unfold StreamGenerator.poll_next
  split <;> [rfl; split <;> rfl]

lemma StreamGenerator.poll_next_content (g : StreamGenerator) (t : Bool) :
    (g.poll_next t).2.content = g.content := by
  unfold StreamGenerator.poll_next
  split <;> [rfl; split <;> rfl]

lemma StreamGenerator.inv_new (content : Bytes) (rpu batch : Nat) :
    (StreamGenerator.new content rpu batch).Inv := by
  unfold StreamGenerator.new StreamGenerator.Inv
  constructor
  · simp only
    split
    · exact le_refl rpu
    · omega
  · exact Nat.zero_le rpu

lemma StreamGenerator.inv_poll (g : StreamGenerator) (t : Bool) (h : g.Inv) :
    ((g.poll_next t).2).Inv := by
  obtain ⟨hb, hu⟩ := h
  unfold StreamGenerator.poll_next
  split
  · exact ⟨hb, hb⟩
  · split
    · refine ⟨hb, ?_⟩
      simp only
      omega
    · exact ⟨hb, hu⟩

lemma StreamGenerator.inv_run (g : StreamGenerator) (ticks : List Bool) (h : g.Inv) :
    (g.run ticks).Inv := by
  induction ticks generalizing g with
  | nil => exact h
  | cons t ts ih => exact ih _ (g.inv_poll t h)

lemma StreamGenerator.run_rpu (g : StreamGenerator) (ticks : List Bool) :
    (g.run ticks).rpu = g.rpu := by
  induction ticks generalizing g with
  | nil => rfl
  | cons t ts ih =>
    show (((g.poll_next t).2).run ts).rpu = g.rpu
    rw [ih, StreamGenerator.poll_next_rpu]

lemma StreamGenerator.run_batch (g : StreamGenerator) (ticks : List Bool) :
    (g.run ticks).batch = g.batch := by
  induction ticks generalizing g with
  | nil => rfl
  | cons t ts ih =>
    show (((g.poll_next t).2).run ts).batch = g.batch
    rw [ih, StreamGenerator.poll_next_batch]

lemma StreamGenerator.poll_next_true_eq (g : StreamGenerator) :
    g.poll_next true =
      (Poll.ready (some (List.replicate g.batch g.content)), { g with used := g.batch }) := by
  simp [StreamGenerator.poll_next]

lemma StreamGenerator.poll_next_false_of_lt (g : StreamGenerator) (h : g.used < g.rpu) :
    g.poll_next false =
      (Poll.ready (some (List.replicate (min (g.rpu - g.used) g.batch) g.content)),
       { g with used := g.used + min (g.rpu - g.used) g.batch }) := by
  simp [StreamGenerator.poll_next, h]

lemma StreamGenerator.poll_next_false_of_ge (g : StreamGenerator) (h : g.rpu ≤ g.used) :
    g.poll_next false = (Poll.pending, g) := by
  simp [StreamGenerator.poll_next, Nat.not_lt.mpr h]

lemma StreamGenerator.delivered_false_le (n : Nat) :
    ∀ g : StreamGenerator, (g.runDelivered (List.replicate n false)).1 ≤ g.rpu - g.used := by
  induction n with
  | zero => intro g; simp [StreamGenerator.runDelivered]
  | succ n ih =>
    intro g
    rw [List.replicate_succ]
    by_cases h : g.used < g.rpu
    · simp only [StreamGenerator.runDelivered, StreamGenerator.poll_next_false_of_lt g h,
        List.length_replicate]
      have h2 := ih { g with used := g.used + min (g.rpu - g.used) g.batch }
      simp only at h2
      omega
    · simp only [StreamGenerator.runDelivered, StreamGenerator.poll_next_false_of_ge g
        (Nat.le_of_not_lt h)]
      exact ih g

lemma StreamGenerator.delivered_false_eq (n : Nat) :
    ∀ g : StreamGenerator, 1 ≤ g.batch → g.rpu - g.used ≤ n →
      (g.runDelivered (List.replicate n false)).1 = g.rpu - g.used := by
  induction n with
  | zero =>
    intro g _ hn
    simp [StreamGenerator.runDelivered]
    omega
  | succ n ih =>
    intro g hb hn
    rw [List.replicate_succ]
    by_cases h : g.used < g.rpu
    · simp only [StreamGenerator.runDelivered, StreamGenerator.poll_next_false_of_lt g h,
        List.length_replicate]
      have h2 := ih { g with used := g.used + min (g.rpu - g.used) g.batch } (by simpa using hb)
        (by simp only; omega)
      simp only at h2
      omega
    · simp only [StreamGenerator.runDelivered, StreamGenerator.poll_next_false_of_ge g
        (Nat.le_of_not_lt h)]
      exact ih g hb (by omega)

lemma StreamGenerator.window_delivered_le (g : StreamGenerator) (h : g.Inv) (n : Nat) :
    (g.runDelivered (true :: List.replicate n false)).1 ≤ g.rpu := by
  simp only [StreamGenerator.runDelivered, StreamGenerator.poll_next_true_eq,
    List.length_replicate]
  have h2 := StreamGenerator.delivered_false_le n { g with used := g.batch }
  simp only at h2
  obtain ⟨hb, _⟩ := h
  omega

/-- C1: whenever a poll_next call observes the window boundary timer
firing, it delivers exactly batch payload copies and sets the used counter
to batch, not to zero, so that rpu - batch quota remains drainable by
later calls within the same window. -/
theorem boundary_poll_delivers_batch (g : StreamGenerator)
    (hb : g.batch ≤ g.rpu) (hpos : 0 < g.batch) :
    (g.poll_next true).1 = Poll.ready (some (List.replicate g.batch g.content)) ∧
    (g.poll_next true).2.used = g.batch ∧
    (((g.poll_next true).2).runDelivered (List.replicate g.rpu false)).1 = g.rpu - g.batch := by
  refine ⟨by rw [StreamGenerator.poll_next_true_eq], by rw [StreamGenerator.poll_next_true_eq], ?_⟩
  rw [StreamGenerator.poll_next_true_eq]
  have h2 := StreamGenerator.delivered_false_eq g.rpu { g with used := g.batch }
    (by simpa using hpos) (by simp only; omega)
  simpa using h2

/-- Witness for C1 at the concrete generator of the spec scenario,
rpu equal to ten and batch equal to six. -/
theorem boundary_poll_delivers_batch_witness :
    ((StreamGenerator.new [7] 10 6).batch ≤ (StreamGenerator.new [7] 10 6).rpu ∧
      0 < (StreamGenerator.new [7] 10 6).batch) ∧
    (((StreamGenerator.new [7] 10 6).poll_next true).1 =
        Poll.ready (some (List.replicate (StreamGenerator.new [7] 10 6).batch
          (StreamGenerator.new [7] 10 6).content)) ∧
      ((StreamGenerator.new [7] 10 6).poll_next true).2.used =
        (StreamGenerator.new [7] 10 6).batch ∧
      ((((StreamGenerator.new [7] 10 6).poll_next true).2).runDelivered
          (List.replicate (StreamGenerator.new [7] 10 6).rpu false)).1 =
        (StreamGenerator.new [7] 10 6).rpu - (StreamGenerator.new [7] 10 6).batch) :=
  ⟨⟨by decide, by decide⟩,
    boundary_poll_delivers_batch (StreamGenerator.new [7] 10 6) (by decide) (by decide)⟩

/-- C2: a mid-window poll with quota remaining delivers the minimum of the
remaining quota and batch immediately and increments used by that amount;
with quota exhausted it is pending and leaves the state unchanged, and
once the boundary fires the call behaves as the window boundary case. -/
theorem midwindow_poll_behavior (g : StreamGenerator) :
    (g.used < g.rpu →
      g.poll_next false =
        (Poll.ready (some (List.replicate (min (g.rpu - g.used) g.batch) g.content)),
         { g with used := g.used + min (g.rpu - g.used) g.batch })) ∧
    (g.rpu ≤ g.used →
      g.poll_next false = (Poll.pending, g) ∧
      g.poll_next true =
        (Poll.ready (some (List.replicate g.batch g.content)), { g with used := g.batch })) :=
  ⟨fun h => StreamGenerator.poll_next_false_of_lt g h,
   fun h => ⟨StreamGenerator.poll_next_false_of_ge g h, StreamGenerator.poll_next_true_eq g⟩⟩

/-- Witness for C2: a generator with six of ten credits used delivers four
records mid-window, and one with all ten used is pending. -/
theorem midwindow_poll_behavior_witness :
    ({ content := [7], rpu := 10, batch := 6, used := 6 } : StreamGenerator).used <
      ({ content := [7], rpu := 10, batch := 6, used := 6 } : StreamGenerator).rpu ∧
    ({ content := [7], rpu := 10, batch := 6, used := 6 } : StreamGenerator).poll_next false =
      (Poll.ready (some (List.replicate 4 [7])),
       { content := [7], rpu := 10, batch := 6, used := 10 }) ∧
    ({ content := [7], rpu := 10, batch := 6, used := 10 } : StreamGenerator).poll_next false =
      (Poll.pending, { content := [7], rpu := 10, batch := 6, used := 10 }) :=
  ⟨by decide,
   by simpa using
     (midwindow_poll_behavior { content := [7], rpu := 10, batch := 6, used := 6 }).1 (by decide),
   ((midwindow_poll_behavior { content := [7], rpu := 10, batch := 6, used := 10 }).2
     (by decide)).1⟩

lemma StreamGenerator.poll_next_length_le (g : StreamGenerator) (t : Bool)
    (data : List Bytes) (g2 : StreamGenerator)
    (h : g.poll_next t = (Poll.ready (some data), g2)) : data.length ≤ g.batch := by
  cases t with
  | false =>
    by_cases hlt : g.used < g.rpu
    · rw [StreamGenerator.poll_next_false_of_lt g hlt, Prod.mk.injEq] at h
      obtain ⟨h1, -⟩ := h
      simp only [Poll.ready.injEq, Option.some.injEq] at h1
      rw [← h1, List.length_replicate]
      exact min_le_right _ _
    · rw [StreamGenerator.poll_next_false_of_ge g (Nat.le_of_not_lt hlt)] at h
      simp at h
  | true =>
    rw [StreamGenerator.poll_next_true_eq, Prod.mk.injEq] at h
    obtain ⟨h1, -⟩ := h
    simp only [Poll.ready.injEq, Option.some.injEq] at h1
    rw [← h1, List.length_replicate]

/-- C3: from construction with positive rpu, used starts at zero, stays at
most rpu across every sequence of poll_next calls, and the records
delivered over any single complete window never exceed rpu. -/
theorem used_quota_invariant (content : Bytes) (rpu batch : Nat) (_hr : 0 < rpu)
    (ticks : List Bool) (n : Nat) :
    (StreamGenerator.new content rpu batch).used = 0 ∧
    ((StreamGenerator.new content rpu batch).run ticks).used ≤ rpu ∧
    (((StreamGenerator.new content rpu batch).run ticks).runDelivered
        (true :: List.replicate n false)).1 ≤ rpu := by
  have hinv := StreamGenerator.inv_run _ ticks (StreamGenerator.inv_new content rpu batch)
  refine ⟨rfl, ?_, ?_⟩
  · have h2 := hinv.2
    rwa [StreamGenerator.run_rpu] at h2
  · have h2 := StreamGenerator.window_delivered_le _ hinv n
    rwa [StreamGenerator.run_rpu] at h2

/-- Witness for C3 at rpu ten, batch six, after a boundary and a
mid-window poll, followed by one complete window. -/
theorem used_quota_invariant_witness :
    (0 : Nat) < 10 ∧
    ((StreamGenerator.new [7] 10 6).used = 0 ∧
      ((StreamGenerator.new [7] 10 6).run [true, false]).used ≤ 10 ∧
      (((StreamGenerator.new [7] 10 6).run [true, false]).runDelivered
          (true :: List.replicate 2 false)).1 ≤ 10) :=
  ⟨by decide, used_quota_invariant [7] 10 6 (by decide) [true, false] 2⟩

/-- C4: the batch stored at construction is the minimum of the configured
batch and rpu, and no poll_next call from any reachable state returns more
records than this effective batch. -/
theorem effective_batch_min (content : Bytes) (rpu batch : Nat) (ticks : List Bool) (t : Bool) :
    (StreamGenerator.new content rpu batch).batch = min batch rpu ∧
    ∀ data g2,
      ((StreamGenerator.new content rpu batch).run ticks).poll_next t =
        (Poll.ready (some data), g2) →
      data.length ≤ min batch rpu := by
  have h1 : (StreamGenerator.new content rpu batch).batch = min batch rpu := by
    show (if batch > rpu then rpu else batch) = min batch rpu
    split <;> omega
  refine ⟨h1, ?_⟩
  intro data g2 h
  have h2 := StreamGenerator.poll_next_length_le _ t data g2 h
  rwa [StreamGenerator.run_batch, h1] at h2

/-- Witness for C4: the generator built with batch six and rpu ten stores
six, and a boundary poll returns six records, at most the effective batch. -/
theorem effective_batch_min_witness :
    (StreamGenerator.new [7] 10 6).batch = min 6 10 ∧
    List.length (List.replicate 6 ([7] : Bytes)) ≤ min 6 10 :=
  ⟨(effective_batch_min [7] 10 6 [] true).1,
   (effective_batch_min [7] 10 6 [] true).2 (List.replicate 6 [7])
     { content := [7], rpu := 10, batch := 6, used := 6 } (by decide)⟩

/-- C5: size_hint is the pair of the remaining quota rpu minus used and
the upper bound rpu; with quota exhausted the lower bound is zero, and
right after a boundary delivery of k records the lower bound is rpu
minus k. -/
theorem size_hint_range (g : StreamGenerator) :
    g.size_hint = (g.rpu - g.used, some g.rpu) ∧
    (g.used = g.rpu → g.size_hint = (0, some g.rpu)) ∧
    (∀ data g2, g.poll_next true = (Poll.ready (some data), g2) →
      g2.size_hint.1 = g.rpu - data.length) := by
  refine ⟨rfl, ?_, ?_⟩
  · intro h
    simp [StreamGenerator.size_hint, h]
  · intro data g2 h
    rw [StreamGenerator.poll_next_true_eq, Prod.mk.injEq] at h
    obtain ⟨h1, h2⟩ := h
    simp only [Poll.ready.injEq, Option.some.injEq] at h1
    rw [← h2, ← h1, List.length_replicate]
    rfl

/-- Witness for C5: with all ten credits used the hint is zero to ten, and
after a boundary delivery of six records the lower bound is four. -/
theorem size_hint_range_witness :
    ({ content := [7], rpu := 10, batch := 6, used := 10 } : StreamGenerator).size_hint =
      (0, some 10) ∧
    ({ content := [7], rpu := 10, batch := 6, used := 6 } : StreamGenerator).size_hint.1 =
      10 - List.length (List.replicate 6 ([7] : Bytes)) :=
  ⟨(size_hint_range { content := [7], rpu := 10, batch := 6, used := 10 }).2.1 (by decide),
   (size_hint_range (StreamGenerator.new [7] 10 6)).2.2 (List.replicate 6 [7])
     { content := [7], rpu := 10, batch := 6, used := 6 } (by decide)⟩

/-- String offset variant from crate message: a value string and a
partition index. -/
structure StringOffset where
  value : String
  partition : Nat
deriving DecidableEq, Repr

/-- Offset variant type from crate message; the generator only builds the
string variant. -/
inductive Offset where
  | string : StringOffset → Offset
deriving DecidableEq, Repr

/-- Modelled from the spec: the string encoding of an Offset (its Display
implementation lives in crate message, outside the sources given here).
The spec describes a string offset as a value paired with a partition
index, so the encoding joins the value with the partition index. -/
def Offset.encode : Offset → String
  | Offset.string so => so.value ++ "-" ++ toString so.partition

/-- MessageID from crate message: vertex name, the string encoding of the
offset, and a slot index. -/
structure MessageID where
  vertex_name : String
  offset : String
  index : Nat
deriving DecidableEq, Repr

/-- Message from crate message, with the fields the generator fills. -/
structure Message where
  keys : List String
  value : Bytes
  offset : Option Offset
  event_time : Nat
  id : MessageID
  headers : List (String × String)
deriving DecidableEq, Repr

/-- GeneratorRead wraps the stream generator. -/
structure GeneratorRead where
  stream_generator : StreamGenerator
deriving DecidableEq, Repr

/-- SourceReader::read for GeneratorRead, acting on one item produced by
the underlying stream. clock gives the nanosecond timestamp observed by
the i-th identifier request within the call (chrono Utc now, defaulted to
zero on overflow), replica is the process wide replica index and
vertexName the stage name, both read from process wide state in the
source. A terminated stream (none) is the fatal branch that panics in the
source, modelled as the error branch. -/
def GeneratorRead.read (clock : Nat → Nat) (replica : Nat) (vertexName : String)
    (streamItem : Option (List Bytes)) : Except String (List Message) :=
  match streamItem with
  | none => Except.error "Stream generator has stopped"
  | some data =>
    Except.ok (data.enum.map (fun p =>
      let id := toString (clock p.1)
      let offset := Offset.string { value := id, partition := replica }
      { keys := []
        value := p.2
        offset := some offset
        event_time := 0
        id := { vertex_name := vertexName, offset := Offset.encode offset, index := 0 }
        headers := [] }))

/-- GeneratorRead::partitions as implemented: the body is the todo form
of Rust, which panics with a not yet implemented message instead of
returning partition indices. The panic is modelled as the error branch. -/
def GeneratorRead.partitions (_r : GeneratorRead) : Except String (List Nat) :=
  Except.error "not yet implemented"

/-- The acker of the generator source holds no state. -/
structure GeneratorAck where
deriving DecidableEq, Repr

/-- SourceAcker::ack for GeneratorAck: ignores the offsets and returns
success, leaving the acker unchanged. -/
def GeneratorAck.ack (a : GeneratorAck) (_offsets : List Offset) :
    Except String Unit × GeneratorAck :=
  (Except.ok (), a)

/-- The lag reader of the generator source holds no state. -/
structure GeneratorLagReader where
deriving DecidableEq, Repr

/-- LagReader::pending for GeneratorLagReader: always succeeds with no
value. -/
def GeneratorLagReader.pending (_r : GeneratorLagReader) : Except String (Option Nat) :=
  Except.ok none

/-- C6: on a delivered batch, read builds one Message per payload whose
identity comes from the i-th timestamp of a monotonically increasing
nanosecond clock combined with the replica index: that pair is the offset
of the Message, and the MessageID carries the string encoding of that
offset, the vertex name and slot index zero. -/
theorem read_message_identity (clock : Nat → Nat) (hmono : StrictMono clock)
    (replica : Nat) (vertexName : String) (data : List Bytes) :
    ∃ msgs : List Message,
      GeneratorRead.read clock replica vertexName (some data) = Except.ok msgs ∧
      msgs.length = data.length ∧
      (∀ i, ∀ hi : i < msgs.length,
        (msgs.get ⟨i, hi⟩).offset =
          some (Offset.string { value := toString (clock i), partition := replica }) ∧
        (msgs.get ⟨i, hi⟩).id =
          { vertex_name := vertexName
            offset := Offset.encode
              (Offset.string { value := toString (clock i), partition := replica })
            index := 0 }) ∧
      (∀ i j : Nat, i < j → clock i < clock j) := by
  refine ⟨_, rfl, ?_, ?_, fun i j h => hmono h⟩
  · simp [List.enum_length]
  · intro i hi
    constructor
    · simp [List.get_eq_getElem, List.getElem_map, List.getElem_enum]
    · simp [List.get_eq_getElem, List.getElem_map, List.getElem_enum]

/-- Witness for C6 with the identity clock on a two payload batch. -/
theorem read_message_identity_witness :
    StrictMono (fun n : Nat => n) ∧
    (∃ msgs : List Message,
      GeneratorRead.read (fun n : Nat => n) 0 "vtx" (some [[1], [2]]) = Except.ok msgs ∧
      msgs.length = ([[1], [2]] : List Bytes).length ∧
      (∀ i, ∀ hi : i < msgs.length,
        (msgs.get ⟨i, hi⟩).offset =
          some (Offset.string { value := toString ((fun n : Nat => n) i), partition := 0 }) ∧
        (msgs.get ⟨i, hi⟩).id =
          { vertex_name := "vtx"
            offset := Offset.encode
              (Offset.string { value := toString ((fun n : Nat => n) i), partition := 0 })
            index := 0 }) ∧
      (∀ i j : Nat, i < j → (fun n : Nat => n) i < (fun n : Nat => n) j)) :=
  ⟨fun _ _ h => h,
   read_message_identity (fun n : Nat => n) (fun _ _ h => h) 0 "vtx" [[1], [2]]⟩

/-- C7: contrary to the claim, partitions does not return the partition
indices this instance serves: the body is an unimplemented todo that
panics on every call, here evaluated on a concrete instance. -/
theorem partitions_unimplemented :
    (GeneratorRead.mk (StreamGenerator.new [7] 10 6)).partitions =
      Except.error "not yet implemented" := rfl

/-- C8: ack succeeds for every offset sequence, empty, duplicated or
unseen alike, and leaves the acker state unchanged. -/
theorem ack_always_succeeds (a : GeneratorAck) (offsets : List Offset) :
    a.ack offsets = (Except.ok (), a) := rfl

/-- C9: pending always succeeds and returns the absent value. -/
theorem pending_always_none (r : GeneratorLagReader) :
    r.pending = Except.ok none := rfl

/-- C10: poll_next never produces the end of stream item: each poll is
pending or ready with some batch, so the fatal branch of read that fires
on a terminated stream is unreachable on items produced by poll_next. -/
theorem poll_never_ends (g : StreamGenerator) (t : Bool) :
    (g.poll_next t).1 ≠ Poll.ready none ∧
    ∀ item g2, g.poll_next t = (Poll.ready item, g2) →
      ∀ clock replica vertexName, ∃ msgs,
        GeneratorRead.read clock replica vertexName item = Except.ok msgs := by
  cases t with
  | true =>
    rw [StreamGenerator.poll_next_true_eq]
    refine ⟨by simp, ?_⟩
    intro item g2 h clock replica vertexName
    simp only [Prod.mk.injEq, Poll.ready.injEq] at h
    obtain ⟨h1, -⟩ := h
    subst h1
    exact ⟨_, rfl⟩
  | false =>
    by_cases hlt : g.used < g.rpu
    · rw [StreamGenerator.poll_next_false_of_lt g hlt]
      refine ⟨by simp, ?_⟩
      intro item g2 h clock replica vertexName
      simp only [Prod.mk.injEq, Poll.ready.injEq] at h
      obtain ⟨h1, -⟩ := h
      subst h1
      exact ⟨_, rfl⟩
    · rw [StreamGenerator.poll_next_false_of_ge g (Nat.le_of_not_lt hlt)]
      refine ⟨by simp, ?_⟩
      intro item g2 h
      simp at h

/-- Witness for C10: the boundary poll of a concrete generator is not the
end of stream item and read turns it into messages. -/
theorem poll_never_ends_witness :
    ((StreamGenerator.new [7] 10 6).poll_next true).1 ≠ Poll.ready none ∧
    ∃ msgs,
      GeneratorRead.read (fun n : Nat => n) 0 "vtx" (some (List.replicate 6 [7])) =
        Except.ok msgs :=
  ⟨(poll_never_ends (StreamGenerator.new [7] 10 6) true).1,
   (poll_never_ends (StreamGenerator.new [7] 10 6) true).2 (some (List.replicate 6 [7]))
     { content := [7], rpu := 10, batch := 6, used := 6 } (by decide) (fun n : Nat => n) 0 "vtx"⟩
